import Mathlib

/-!
Verification development for the `BoardStitcher` panoramic frame-stitching
engine of `apps/web/src/lib/camera/useCamera.ts` (stitcher section, originally
`apps/web/src/lib/mapping/stitcher.ts`).

The JavaScript class is embedded shallowly: raster canvases become pixel
grids, the mutable class becomes explicit state passing, JavaScript numbers
become `ℚ` (all arithmetic performed by the stitcher is exact on small
rationals, so `ℚ` agrees with IEEE doubles on every operation modelled here),
and thrown exceptions become `Except` values.
-/

namespace SasaSight

/-- A canvas raster: `pixel k` is the RGBA pixel at flat index `k`
(row-major, `k = y * width + x`), restricted to its RGB channels, each a byte
`0..255` as produced by `getImageData`.  The alpha channel is not read by any
stitcher routine modelled here. -/
structure Canvas where
  width : ℕ
  height : ℕ
  pixel : ℕ → ℕ × ℕ × ℕ

/-- Grayscale conversion `(data[idx] + data[idx+1] + data[idx+2]) / 3` as
stored into a `Uint8ClampedArray`: the mean of three bytes has fractional part
0, 1/3 or 2/3, so the clamped store's round-half-to-even is plain rounding,
clamped at 255.  `(2*s + 3) / 6` (natural division) is that rounding of `s/3`. -/
def grayByte (r g b : ℕ) : ℕ :=
  min 255 ((2 * (r + g + b) + 3) / 6)

/-- Read the grayscale value of the pixel at (possibly negative) flat index
`k` of `c`'s `getImageData` buffer.  An out-of-range typed-array read yields
`undefined`; the grayscale arithmetic on it yields `NaN`, which the
`Uint8ClampedArray` store turns into 0 — hence the `else 0`. -/
def grayAt (c : Canvas) (k : ℤ) : ℕ :=
  if 0 ≤ k ∧ k < (c.width * c.height : ℤ) then
    grayByte (c.pixel k.toNat).1 (c.pixel k.toNat).2.1 (c.pixel k.toNat).2.2
  else 0

/-- The `side` argument of `extractVerticalEdge`. -/
inductive Side where
  | left
  | right
deriving DecidableEq

/-- Embeds `extractVerticalEdge(canvas, side, width)`: the strip of grayscale values
`edge[y * width + px]` for `y < canvas.height`, `px < width`, reading the
buffer at flat pixel index `y * canvas.width + x + px` with
`x = side === 'right' ? canvas.width - width : 0`.  (The source returns `null`
when no 2d context is available; frame canvases are modelled as always
readable — context failure is modelled only where the source throws, namely
on the composition canvas in `stitch`.) -/
def extractVerticalEdge (c : Canvas) (side : Side) (w : ℕ) : List ℕ :=
  let x : ℤ := match side with
    | Side.right => (c.width : ℤ) - w
    | Side.left => 0
  (List.range c.height).flatMap fun y =>
    (List.range w).map fun px => grayAt c ((y : ℤ) * c.width + x + px)

/-- Embeds `correlateEdges(edge1, edge2, offset)`: over
`i < min(edge1.length, edge2.length - offset)` accumulate
`1 - |edge1[i] - edge2[i+offset]| / 255` and divide by the iteration count
(0 when the loop never runs).  Every index read in the loop is in range, so
the `getD _ 0` defaults are never used. -/
def correlateEdges (e1 e2 : List ℕ) (offset : ℕ) : ℚ :=
  let n := min e1.length (e2.length - offset)
  let s : ℚ := ((List.range n).map fun i =>
    1 - (((e1.getD i 0 : ℤ) - (e2.getD (i + offset) 0 : ℤ)).natAbs : ℚ) / 255).sum
  if 0 < n then s / n else 0

/-- The offset-search loop of `detectOverlap`: fold over candidate offsets
`0, 1, …, min(e1.length, e2.length) - 20 - 1` keeping `(bestOffset, bestScore)`,
starting from `(0, 0)` and replacing on strict improvement
(`score > bestScore`). -/
def bestPair (e1 e2 : List ℕ) : ℕ × ℚ :=
  (List.range (min e1.length e2.length - 20)).foldl
    (fun best o =>
      let s := correlateEdges e1 e2 o
      if best.2 < s then (o, s) else best)
    (0, 0)

/-- One captured frame handed to the stitcher (`StitchFrame`).  `imageData`
is the captured `ImageData` snapshot carried alongside the canvas; no
stitcher routine reads it (pixels are always read through `canvas`). -/
structure StitchFrame where
  id : String
  index : ℤ
  canvas : Canvas
  imageData : Canvas
  timestamp : ℚ
  quality : ℚ

/-- A detected correspondence between two adjacent frames (`OverlapRegion`). -/
structure OverlapRegion where
  frame1Id : String
  frame2Id : String
  x : ℤ
  y : ℕ
  width : ℕ
  height : ℤ
  confidence : ℚ
deriving DecidableEq

/-- The `rightEdge` strip of `detectOverlap`:
`extractVerticalEdge(canvas1, 'right', 60)`. -/
def rightStrip (f : StitchFrame) : List ℕ :=
  extractVerticalEdge f.canvas Side.right 60

/-- The `leftEdge` strip of `detectOverlap`:
`extractVerticalEdge(canvas2, 'left', 60)`. -/
def leftStrip (f : StitchFrame) : List ℕ :=
  extractVerticalEdge f.canvas Side.left 60

/-- Embeds `detectOverlap(frame1, frame2)`: correlate the 60px right edge strip of
`frame1` against the 60px left edge strip of `frame2`; if the best score is
below 0.5 return `null`, else the region with `x = canvas1.width - 60`,
`y = bestOffset`, `width = 60`, `height = canvas1.height - |bestOffset|`
(the offset is a natural number, so the `Math.abs` is the identity) and
`confidence = bestScore`. -/
def detectOverlap (f1 f2 : StitchFrame) : Option OverlapRegion :=
  let b := bestPair (rightStrip f1) (leftStrip f2)
  if b.2 < 1/2 then none
  else some
    { frame1Id := f1.id
      frame2Id := f2.id
      x := (f1.canvas.width : ℤ) - 60
      y := b.1
      width := 60
      height := (f1.canvas.height : ℤ) - (b.1 : ℤ)
      confidence := b.2 }

/-- A frame placement recorded during composition (`Transform`). -/
structure Transform where
  tx : ℚ
  ty : ℚ
  scale : ℚ

/-- Dimensions of the composition canvas as allocated in `stitch` before
`cropToContent` runs: `totalWidth + padding * 2` by `maxHeight + padding * 2`
with `padding = 20`.  The cropped raster's pixel content is outside the
modelled fragment (no verified property reads it); the record stands for the
composite the source returns and caches. -/
structure CompositionInfo where
  preCropWidth : ℚ
  preCropHeight : ℚ
deriving DecidableEq

/-- The `BoardStitcher` instance state: the ordered frame list, the cached
composition (if a multi-frame stitch has completed), the `transforms` map
(modelled as an insertion-ordered association list, matching a JS `Map`),
and the overlap list from the most recent multi-frame stitch. -/
structure BoardStitcher where
  frames : List StitchFrame
  composition : Option CompositionInfo
  transforms : List (String × Transform)
  overlaps : List OverlapRegion

/-- A freshly constructed `BoardStitcher`. -/
def BoardStitcher.init : BoardStitcher :=
  { frames := [], composition := none, transforms := [], overlaps := [] }

/-- Embeds `addFrame(frame)`: frames with `quality < 0.3` are dropped (the `console.warn`
side effect is not modelled); others are pushed onto the end of `frames`. -/
def addFrame (s : BoardStitcher) (f : StitchFrame) : BoardStitcher :=
  if f.quality < 3/10 then s
  else { s with frames := s.frames ++ [f] }

/-- The overlap-detection loop of `stitch`: run `detectOverlap` on every
adjacent pair `(frames[i], frames[i+1])` and keep the non-`null` results in
order (`this.overlaps.push(overlap)`). -/
def computeOverlaps (fs : List StitchFrame) : List OverlapRegion :=
  (fs.zip fs.tail).filterMap fun p => detectOverlap p.1 p.2

/-- The `i ≥ 1` part of the composition-size loop: each remaining frame
contributes `canvas.width - overlapWidth * 0.5`, where the overlap for the
`j`-th remaining frame is `overlaps[j]` if present (`undefined`, hence
width 0, past the end of the list — note the source indexes the *compacted*
found-overlap list by pair position). -/
def restWidth : List StitchFrame → List OverlapRegion → ℚ
  | [], _ => 0
  | f :: fs, [] => (f.canvas.width : ℚ) + restWidth fs []
  | f :: fs, o :: os => ((f.canvas.width : ℚ) - (o.width : ℚ) * (1/2)) + restWidth fs os

/-- The `totalWidth` value as computed by `stitch`: the first frame's full width plus
`restWidth` of the remaining frames against the overlap list. -/
def totalWidth : List StitchFrame → List OverlapRegion → ℚ
  | [], _ => 0
  | f :: fs, ovs => (f.canvas.width : ℚ) + restWidth fs ovs

/-- The `maxHeight` value as computed by `stitch`: starts at `frames[0].canvas.height`
and takes `Math.max` with each later frame's height. -/
def maxHeight : List StitchFrame → ℕ
  | [] => 0
  | f :: fs => fs.foldl (fun m g => max m g.canvas.height) f.canvas.height

/-- The fixed composition padding of `stitch`. -/
def padding : ℕ := 20

/-- Pre-crop composition width: `totalWidth + padding * 2`. -/
def preCropWidth (fs : List StitchFrame) : ℚ :=
  totalWidth fs (computeOverlaps fs) + (padding : ℚ) * 2

/-- Pre-crop composition height: `maxHeight + padding * 2`. -/
def preCropHeight (fs : List StitchFrame) : ℚ :=
  (maxHeight fs : ℚ) + (padding : ℚ) * 2

/-- Embeds `Map.set` on the insertion-ordered association list modelling
`this.transforms`: replace in place if the key is present, else append. -/
def mapSet (m : List (String × Transform)) (k : String) (v : Transform) :
    List (String × Transform) :=
  if m.any fun p => p.1 = k then
    m.map fun p => if p.1 = k then (k, v) else p
  else m ++ [(k, v)]

/-- The drawing loop of `stitch`, restricted to its arithmetic effects
(`currentX` advance and `transforms` updates; pixel drawing and blending are
outside the modelled fragment).  Handles frames after the first: each records
`tx = currentX`, then `currentX` advances by `canvas.width - overlap.width * 0.7`
when the (compacted-list) overlap for this position exists, else by the full
width. -/
def placeRest (m : List (String × Transform)) :
    List StitchFrame → List OverlapRegion → ℚ → List (String × Transform)
  | [], _, _ => m
  | f :: fs, [], cx =>
      placeRest (mapSet m f.id ⟨cx, (padding : ℚ), 1⟩) fs []
        (cx + (f.canvas.width : ℚ))
  | f :: fs, o :: os, cx =>
      placeRest (mapSet m f.id ⟨cx, (padding : ℚ), 1⟩) fs os
        (cx + (f.canvas.width : ℚ) - (o.width : ℚ) * (7/10))

/-- The whole drawing loop: the first frame is placed at
`tx = padding` and advances `currentX` by its full width. -/
def placeFrames (m : List (String × Transform)) :
    List StitchFrame → List OverlapRegion → List (String × Transform)
  | [], _ => m
  | f :: fs, ovs =>
      placeRest (mapSet m f.id ⟨(padding : ℚ), (padding : ℚ), 1⟩) fs ovs
        ((padding : ℚ) + (f.canvas.width : ℚ))

/-- The two failures `stitch` can throw: `EmptyInputError`
(`'No frames to stitch'`) and `RenderSurfaceError`
(`'Failed to get canvas context'`). -/
inductive StitchError where
  | emptyInput
  | renderSurface
deriving DecidableEq

/-- What a successful `stitch` returns: the single stored frame's canvas
unchanged, or a multi-frame composite. -/
inductive StitchResult where
  | single (c : Canvas)
  | composite (info : CompositionInfo)

/-- Embeds `stitch()`: throw `EmptyInputError` on zero frames; return the sole
frame's canvas unchanged on one frame (no state change — in particular the
cached composition and the overlap list are untouched); otherwise recompute
`this.overlaps` over adjacent pairs, then (`ctxOk` models whether
`composition.getContext('2d')` yields a context) either throw
`RenderSurfaceError` — with the overlap recomputation already applied to the
state, as in the source, where the throw happens after the detection loop —
or place all frames, cache and return the composite. -/
def stitch (ctxOk : Bool) (s : BoardStitcher) :
    BoardStitcher × Except StitchError StitchResult :=
  match s.frames with
  | [] => (s, Except.error StitchError.emptyInput)
  | [f] => (s, Except.ok (StitchResult.single f.canvas))
  | f1 :: f2 :: rest =>
      let fs := f1 :: f2 :: rest
      let ovs := computeOverlaps fs
      let s1 := { s with overlaps := ovs }
      if ctxOk then
        let info : CompositionInfo := ⟨preCropWidth fs, preCropHeight fs⟩
        ({ s1 with
            transforms := placeFrames s1.transforms fs ovs
            composition := some info },
          Except.ok (StitchResult.composite info))
      else (s1, Except.error StitchError.renderSurface)

/-- Embeds `getFrameCount()`. -/
def getFrameCount (s : BoardStitcher) : ℕ :=
  s.frames.length

/-- Embeds `getFrames()` (the source returns a fresh array with the same elements). -/
def getFrames (s : BoardStitcher) : List StitchFrame :=
  s.frames

/-- Embeds `getComposition()`. -/
def getComposition (s : BoardStitcher) : Option CompositionInfo :=
  s.composition

/-- The frame-count term of `getProgress`: `(frames.length / 20) * 60`. -/
def frameProgress (s : BoardStitcher) : ℚ :=
  ((s.frames.length : ℚ) / 20) * 60

/-- The overlap term of `getProgress`:
`(overlaps.length / Math.max(1, frames.length - 1)) * 40`. -/
def overlapProgress (s : BoardStitcher) : ℚ :=
  ((s.overlaps.length : ℚ) / ((max 1 (s.frames.length - 1) : ℕ) : ℚ)) * 40

/-- Embeds `getProgress()`: 0 on an empty stitcher, else
`Math.min(100, frameProgress + overlapProgress)`. -/
def getProgress (s : BoardStitcher) : ℚ :=
  if s.frames.length = 0 then 0
  else min 100 (frameProgress s + overlapProgress s)

/-- Embeds `getQuality()`: 0 below two frames, else
`0.4 * min(1, n/20) + 0.3 * (mean overlap confidence, 0 if none) +
0.3 * mean frame quality`. -/
def getQuality (s : BoardStitcher) : ℚ :=
  if s.frames.length < 2 then 0
  else
    let frameScore : ℚ := min 1 ((s.frames.length : ℚ) / 20)
    let avgOverlapConfidence : ℚ :=
      if 0 < s.overlaps.length then
        (s.overlaps.map fun o => o.confidence).sum / (s.overlaps.length : ℚ)
      else 0
    let avgFrameQuality : ℚ :=
      (s.frames.map fun f => f.quality).sum / (s.frames.length : ℚ)
    frameScore * (2/5) + avgOverlapConfidence * (3/10) + avgFrameQuality * (3/10)

/-- Embeds `clear()`: reset every field. -/
def clear (_s : BoardStitcher) : BoardStitcher :=
  BoardStitcher.init

/-- One caller-visible operation on a stitcher, for reasoning about
reachable states: an `addFrame`, a `stitch` (with its render-surface
availability), or a `clear`. -/
inductive Op where
  | add (f : StitchFrame)
  | stitchOp (ctxOk : Bool)
  | clearOp

/-- Apply one operation to the state (for `stitch`, keep the post-call state
and discard the returned value). -/
def step (s : BoardStitcher) : Op → BoardStitcher
  | Op.add f => addFrame s f
  | Op.stitchOp ctxOk => (stitch ctxOk s).1
  | Op.clearOp => clear s

/-- The state after running a sequence of operations on a fresh stitcher. -/
def run (ops : List Op) : BoardStitcher :=
  ops.foldl step BoardStitcher.init

/-!
Spec-side definitions, written from the specification's words, for the
refinement-style claims that compare the code's computation against the
spec's formula.
-/

/-- Spec-side correlation score ("for each row `i`, accumulate
`1 - |leftStrip[i] - rightStrip[i+o]| / 255`, average over all compared
rows"): the mean, over the compared index range, of the per-index term. -/
def specScore (l r : List ℕ) (o : ℕ) : ℚ :=
  let n := min l.length (r.length - o)
  if n = 0 then 0
  else (∑ i in Finset.range n,
    (1 - (((l.getD i 0 : ℤ) - (r.getD (i + o) 0 : ℤ)).natAbs : ℚ) / 255)) / n

/-- Spec-side pre-crop composite width ("sum of each frame's width minus half
the overlap width for every pair that did find an overlap, plus 20px padding
on all sides"). -/
def specPreCropWidth (fs : List StitchFrame) : ℚ :=
  (fs.map fun f => (f.canvas.width : ℚ)).sum
    - ((computeOverlaps fs).map fun o => (o.width : ℚ) / 2).sum
    + 40

/-!
Exemplar concrete inputs, used by witnesses and counterexamples.
-/

/-- A 60×1 all-black canvas: wide enough for in-range edge strips. -/
def exCanvas60 : Canvas :=
  { width := 60, height := 1, pixel := fun _ => (0, 0, 0) }

/-- A 100×1 all-black canvas. -/
def exCanvas100 : Canvas :=
  { width := 100, height := 1, pixel := fun _ => (0, 0, 0) }

/-- A degenerate 1×1 all-black canvas — narrower than the 60px edge strip,
so strip extraction reads out of range (yielding zeros). -/
def exCanvas1 : Canvas :=
  { width := 1, height := 1, pixel := fun _ => (0, 0, 0) }

/-- A good-quality frame on the 60×1 canvas. -/
def exF1 : StitchFrame :=
  { id := "f1", index := 0, canvas := exCanvas60, imageData := exCanvas60,
    timestamp := 0, quality := 9/10 }

/-- A second good-quality frame on the 60×1 canvas. -/
def exF2 : StitchFrame :=
  { id := "f2", index := 1, canvas := exCanvas60, imageData := exCanvas60,
    timestamp := 1, quality := 9/10 }

/-- A frame whose quality 0.2 is below the 0.3 acceptance floor. -/
def exLowF : StitchFrame :=
  { id := "low", index := 0, canvas := exCanvas60, imageData := exCanvas60,
    timestamp := 0, quality := 1/5 }

/-- A good-quality frame on the 100×1 canvas. -/
def exWideF : StitchFrame :=
  { id := "wide", index := 0, canvas := exCanvas100, imageData := exCanvas100,
    timestamp := 0, quality := 9/10 }

/-- A good-quality frame on the degenerate 1×1 canvas. -/
def exNarrowF1 : StitchFrame :=
  { id := "n1", index := 1, canvas := exCanvas1, imageData := exCanvas1,
    timestamp := 1, quality := 9/10 }

/-- Another good-quality frame on the degenerate 1×1 canvas. -/
def exNarrowF2 : StitchFrame :=
  { id := "n2", index := 2, canvas := exCanvas1, imageData := exCanvas1,
    timestamp := 2, quality := 9/10 }

/-- A stitcher holding exactly one frame. -/
def exS1 : BoardStitcher :=
  { frames := [exF1], composition := none, transforms := [], overlaps := [] }

/-- A stitcher holding two 60px-wide frames. -/
def exS2 : BoardStitcher :=
  { frames := [exF1, exF2], composition := none, transforms := [], overlaps := [] }

/-- A stitcher holding one wide frame followed by two 1px-wide frames. -/
def exNarrowS : BoardStitcher :=
  { frames := [exWideF, exNarrowF1, exNarrowF2], composition := none,
    transforms := [], overlaps := [] }

/-!
Evaluation lemmas for the exemplar inputs.  Rational arithmetic does not
reduce in the kernel (`Rat` normalization), so concrete values are
established symbolically; the strip level is pure `ℕ` data and is settled by
`decide`.
-/

set_option maxRecDepth 40000 in
/-- Every exemplar edge strip is a 60-long all-zero strip (the canvases are
all black and one row high; out-of-range reads on the 1px canvas give 0). -/
theorem exStrips :
    rightStrip exF1 = List.replicate 60 0 ∧
    leftStrip exF2 = List.replicate 60 0 ∧
    rightStrip exWideF = List.replicate 60 0 ∧
    rightStrip exNarrowF1 = List.replicate 60 0 ∧
    leftStrip exNarrowF1 = List.replicate 60 0 ∧
    leftStrip exNarrowF2 = List.replicate 60 0 := by
  refine ⟨?_, ?_, ?_, ?_, ?_, ?_⟩ <;> decide

/-- Any `getD` of an all-zero list with default 0 is 0. -/
theorem getD_replicate_zero : ∀ (n i : ℕ), (List.replicate n (0:ℕ)).getD i 0 = 0
  | 0, _ => rfl
  | _ + 1, 0 => rfl
  | n + 1, i + 1 => getD_replicate_zero n i

/-- Correlating two all-zero strips: every compared term is `1 - 0/255 = 1`,
so the score is 1 whenever the loop runs at all, else 0. -/
theorem correlateEdges_replicate_zero (a b o : ℕ) :
    correlateEdges (List.replicate a 0) (List.replicate b 0) o =
      if 0 < min a (b - o) then 1 else 0 := by
  unfold correlateEdges
  simp only [List.length_replicate, getD_replicate_zero, Nat.cast_zero, sub_self,
    Int.natAbs_zero, zero_div, sub_zero]
  rw [List.map_const', List.sum_replicate, List.length_range]
  split
  · rename_i h
    have hne : ((min a (b - o) : ℕ) : ℚ) ≠ 0 := by
      exact_mod_cast Nat.pos_iff_ne_zero.mp h
    rw [nsmul_eq_mul, mul_one, div_self hne]
  · rfl

/-- Correlating two all-zero strips never exceeds 1. -/
theorem correlateEdges_replicate_zero_le_one (a b o : ℕ) :
    correlateEdges (List.replicate a 0) (List.replicate b 0) o ≤ 1 := by
  rw [correlateEdges_replicate_zero]
  split <;> norm_num

/-- The offset-search fold never moves once its running best already
dominates every remaining score. -/
theorem foldl_best_stay (f : ℕ → ℚ) :
    ∀ (l : List ℕ) (b : ℕ × ℚ), (∀ o ∈ l, f o ≤ b.2) →
      l.foldl (fun best o => if best.2 < f o then (o, f o) else best) b = b
  | [], _, _ => rfl
  | a :: l, b, h => by
    have ha : ¬ b.2 < f a := not_lt.mpr (h a (List.mem_cons_self a l))
    simp only [List.foldl_cons, if_neg ha]
    exact foldl_best_stay f l b fun o ho => h o (List.mem_cons_of_mem a ho)

/-- The offset search over two 60-long all-zero strips: offset 0 already
scores 1, and nothing beats it. -/
theorem bestPair_replicate_zero :
    bestPair (List.replicate 60 0) (List.replicate 60 0) = (0, 1) := by
  unfold bestPair
  simp only [List.length_replicate]
  rw [show min 60 60 - 20 = 40 by decide, List.range_succ_eq_map]
  have h0 : correlateEdges (List.replicate 60 0) (List.replicate 60 0) 0 = 1 := by
    rw [correlateEdges_replicate_zero]
    decide
  simp only [List.foldl_cons, h0]
  have hlt : ((0 : ℕ), (0 : ℚ)).2 < (1 : ℚ) := by norm_num
  rw [if_pos hlt]
  exact foldl_best_stay (correlateEdges (List.replicate 60 0) (List.replicate 60 0)) _ _
    fun o _ => correlateEdges_replicate_zero_le_one 60 60 o

/-- Evaluating `detectOverlap` on the two exemplar 60×1 black frames. -/
theorem detect_exF1_exF2 :
    detectOverlap exF1 exF2 = some ⟨"f1", "f2", 0, 0, 60, 1, 1⟩ := by
  unfold detectOverlap
  rw [exStrips.1, exStrips.2.1, bestPair_replicate_zero]
  norm_num [exF1, exF2, exCanvas60]

/-- Evaluating `detectOverlap` on the wide frame followed by the 1px frame. -/
theorem detect_exWideF_exNarrowF1 :
    detectOverlap exWideF exNarrowF1 = some ⟨"wide", "n1", 40, 0, 60, 1, 1⟩ := by
  unfold detectOverlap
  rw [exStrips.2.2.1, exStrips.2.2.2.2.1, bestPair_replicate_zero]
  norm_num [exWideF, exNarrowF1, exCanvas100, exCanvas1]

/-- Evaluating `detectOverlap` on the two 1px frames. -/
theorem detect_exNarrowF1_exNarrowF2 :
    detectOverlap exNarrowF1 exNarrowF2 = some ⟨"n1", "n2", -59, 0, 60, 1, 1⟩ := by
  unfold detectOverlap
  rw [exStrips.2.2.2.1, exStrips.2.2.2.2.2, bestPair_replicate_zero]
  norm_num [exNarrowF1, exNarrowF2, exCanvas1]

/-- The overlap list of the two-frame exemplar stitcher. -/
theorem computeOverlaps_exS2 :
    computeOverlaps exS2.frames = [⟨"f1", "f2", 0, 0, 60, 1, 1⟩] := by
  simp [exS2, computeOverlaps, detect_exF1_exF2]

/-- The overlap list of the wide-then-narrow exemplar stitcher: both adjacent
pairs correlate perfectly (the strips are all zeros), so both overlaps are
found, each 60 wide. -/
theorem computeOverlaps_exNarrowS :
    computeOverlaps exNarrowS.frames =
      [⟨"wide", "n1", 40, 0, 60, 1, 1⟩, ⟨"n1", "n2", -59, 0, 60, 1, 1⟩] := by
  simp [exNarrowS, computeOverlaps, detect_exWideF_exNarrowF1, detect_exNarrowF1_exNarrowF2]

/-- Pre-crop width of the two-frame exemplar: `60 + (60 - 30) + 40`. -/
theorem preCropWidth_exS2 : preCropWidth exS2.frames = 130 := by
  rw [preCropWidth, computeOverlaps_exS2]
  norm_num [exS2, totalWidth, restWidth, exF1, exF2, exCanvas60, padding]

/-- Pre-crop height of the two-frame exemplar. -/
theorem preCropHeight_exS2 : preCropHeight exS2.frames = 41 := by
  norm_num [preCropHeight, exS2, maxHeight, exF1, exF2, exCanvas60, padding]

/-- Pre-crop width of the wide-then-narrow exemplar:
`100 + (1 - 30) + (1 - 30) + 40 = 82`, smaller than the 100px frame. -/
theorem preCropWidth_exNarrowS : preCropWidth exNarrowS.frames = 82 := by
  rw [preCropWidth, computeOverlaps_exNarrowS]
  norm_num [exNarrowS, totalWidth, restWidth, exWideF, exNarrowF1, exNarrowF2,
    exCanvas100, exCanvas1, padding]

/-!
General lemmas about the embedded operations.
-/

/-- The value of `restWidth` is the sum of the remaining frame widths minus half of each
consumed overlap width (the overlap list is never longer than the remaining
frames in `stitch`). -/
theorem restWidth_eq : ∀ (fs : List StitchFrame) (ovs : List OverlapRegion),
    ovs.length ≤ fs.length →
    restWidth fs ovs = (fs.map fun f => (f.canvas.width : ℚ)).sum
      - (ovs.map fun o => (o.width : ℚ) / 2).sum
  | [], [], _ => by simp [restWidth]
  | [], _ :: _, h => by simp at h
  | f :: fs, [], _ => by
      rw [restWidth, restWidth_eq fs [] (by simp)]
      simp
  | f :: fs, o :: os, h => by
      rw [restWidth, restWidth_eq fs os (by simpa using h)]
      simp only [List.map_cons, List.sum_cons]
      ring

/-- The value of `totalWidth` is the sum of all frame widths minus half of each consumed
overlap width. -/
theorem totalWidth_eq (fs : List StitchFrame) (ovs : List OverlapRegion)
    (h : ovs.length ≤ fs.length - 1) :
    totalWidth fs ovs = (fs.map fun f => (f.canvas.width : ℚ)).sum
      - (ovs.map fun o => (o.width : ℚ) / 2).sum := by
  match fs with
  | [] =>
      have : ovs = [] := List.length_eq_zero.mp (Nat.le_zero.mp h)
      subst this
      simp [totalWidth]
  | f :: rest =>
      rw [totalWidth, restWidth_eq rest ovs (by simpa using h)]
      simp only [List.map_cons, List.sum_cons]
      ring

/-- The number of found overlaps is at most the number of adjacent pairs. -/
theorem computeOverlaps_length (fs : List StitchFrame) :
    (computeOverlaps fs).length ≤ fs.length - 1 := by
  have h1 := List.length_filterMap_le (fun p : StitchFrame × StitchFrame =>
    detectOverlap p.1 p.2) (fs.zip fs.tail)
  have h2 : (fs.zip fs.tail).length = min fs.length fs.tail.length :=
    List.length_zip fs fs.tail
  rw [computeOverlaps]
  rw [h2, List.length_tail] at h1
  exact le_trans h1 (by omega)

/-- Every region `detectOverlap` returns has confidence at least 1/2. -/
theorem detectOverlap_conf (f1 f2 : StitchFrame) (r : OverlapRegion)
    (h : detectOverlap f1 f2 = some r) : 1/2 ≤ r.confidence := by
  unfold detectOverlap at h
  dsimp only at h
  split at h
  · exact absurd h (by simp)
  · rename_i hc
    cases h
    exact not_lt.mp hc

/-- Every region `detectOverlap` returns is 60 wide. -/
theorem detectOverlap_width (f1 f2 : StitchFrame) (r : OverlapRegion)
    (h : detectOverlap f1 f2 = some r) : r.width = 60 := by
  unfold detectOverlap at h
  dsimp only at h
  split at h
  · exact absurd h (by simp)
  · cases h
    rfl

/-- Every stored overlap of `computeOverlaps` comes from `detectOverlap` on
some adjacent pair. -/
theorem mem_computeOverlaps (fs : List StitchFrame) (r : OverlapRegion)
    (h : r ∈ computeOverlaps fs) :
    ∃ p ∈ fs.zip fs.tail, detectOverlap p.1 p.2 = some r := by
  rw [computeOverlaps] at h
  exact List.mem_filterMap.mp h

/-- Sum over `List.range` agrees with the `Finset.range` sum. -/
theorem list_range_map_sum (f : ℕ → ℚ) :
    ∀ n, ((List.range n).map f).sum = ∑ i in Finset.range n, f i
  | 0 => by simp
  | n + 1 => by
      rw [List.range_succ, List.map_append, List.sum_append,
        Finset.sum_range_succ, list_range_map_sum f n]
      simp

/-- The loop of `correlateEdges` computes exactly the spec's average. -/
theorem correlateEdges_eq_specScore (e1 e2 : List ℕ) (o : ℕ) :
    correlateEdges e1 e2 o = specScore e1 e2 o := by
  unfold correlateEdges specScore
  dsimp only
  rw [list_range_map_sum]
  rcases Nat.eq_zero_or_pos (min e1.length (e2.length - o)) with h | h
  · simp [h]
  · rw [if_pos h, if_neg (Nat.pos_iff_ne_zero.mp h)]

/-- Characterization of the strict-improvement fold: the result dominates
every candidate score and the initial score, and is either the initial pair
or attains its score at a candidate from the list. -/
theorem foldl_best (f : ℕ → ℚ) :
    ∀ (l : List ℕ) (b : ℕ × ℚ),
      (∀ o ∈ l, f o ≤
        (l.foldl (fun best o => if best.2 < f o then (o, f o) else best) b).2)
      ∧ b.2 ≤ (l.foldl (fun best o => if best.2 < f o then (o, f o) else best) b).2
      ∧ (l.foldl (fun best o => if best.2 < f o then (o, f o) else best) b = b
          ∨ ((l.foldl (fun best o => if best.2 < f o then (o, f o) else best) b).1 ∈ l
            ∧ (l.foldl (fun best o => if best.2 < f o then (o, f o) else best) b).2
              = f (l.foldl (fun best o => if best.2 < f o then (o, f o) else best) b).1))
  | [], b => ⟨fun o ho => absurd ho (List.not_mem_nil o), le_refl _, Or.inl rfl⟩
  | a :: l, b => by
      have ih := foldl_best f l (if b.2 < f a then (a, f a) else b)
      simp only [List.foldl_cons]
      refine ⟨?_, ?_, ?_⟩
      · intro o ho
        rcases List.mem_cons.mp ho with rfl | ho
        · refine le_trans ?_ ih.2.1
          by_cases hba : b.2 < f o
          · rw [if_pos hba]
          · rw [if_neg hba]
            exact not_lt.mp hba
        · exact ih.1 o ho
      · refine le_trans ?_ ih.2.1
        by_cases hba : b.2 < f a
        · rw [if_pos hba]
          exact le_of_lt hba
        · rw [if_neg hba]
      · rcases ih.2.2 with heq | ⟨hm, he⟩
        · by_cases hba : b.2 < f a
          · right
            rw [heq, if_pos hba]
            exact ⟨List.mem_cons_self a l, rfl⟩
          · left
            rw [heq, if_neg hba]
        · right
          exact ⟨List.mem_cons_of_mem a hm, he⟩

/-- The `bestPair` result dominates every candidate score, and either nothing improved
on the initial `(0, 0)` or the best score is attained at its offset. -/
theorem bestPair_spec (e1 e2 : List ℕ) :
    (∀ o, o < min e1.length e2.length - 20 →
      correlateEdges e1 e2 o ≤ (bestPair e1 e2).2)
    ∧ (bestPair e1 e2 = (0, 0)
        ∨ ((bestPair e1 e2).1 < min e1.length e2.length - 20
          ∧ (bestPair e1 e2).2 = correlateEdges e1 e2 (bestPair e1 e2).1)) := by
  have h := foldl_best (correlateEdges e1 e2)
    (List.range (min e1.length e2.length - 20)) (0, 0)
  refine ⟨fun o ho => h.1 o (List.mem_range.mpr ho), ?_⟩
  rcases h.2.2 with heq | ⟨hm, he⟩
  · exact Or.inl heq
  · exact Or.inr ⟨List.mem_range.mp hm, he⟩

/-- The base is below any `max`-fold over it. -/
theorem le_foldl_max : ∀ (l : List ℕ) (b : ℕ), b ≤ l.foldl max b
  | [], _ => le_refl _
  | a :: l, b => le_trans (le_max_left b a) (le_foldl_max l (max b a))

/-- Every member is below the `max`-fold. -/
theorem mem_le_foldl_max : ∀ (l : List ℕ) (b x : ℕ), x ∈ l → x ≤ l.foldl max b
  | a :: l, b, x, h => by
      rcases List.mem_cons.mp h with rfl | h
      · exact le_trans (le_max_right b x) (le_foldl_max l (max b x))
      · exact mem_le_foldl_max l (max b a) x h

/-- A `max`-fold is the base or one of the members. -/
theorem foldl_max_mem : ∀ (l : List ℕ) (b : ℕ), l.foldl max b = b ∨ l.foldl max b ∈ l
  | [], _ => Or.inl rfl
  | a :: l, b => by
      simp only [List.foldl_cons]
      rcases foldl_max_mem l (max b a) with h | h
      · rcases max_choice b a with hba | hba
        · left
          rw [h, hba]
        · right
          rw [h, hba]
          exact List.mem_cons_self a l
      · exact Or.inr (List.mem_cons_of_mem a h)

/-- A list sum is at least its length times a lower bound on its entries. -/
theorem const_mul_length_le_sum (g : StitchFrame → ℚ) (c : ℚ) :
    ∀ (l : List StitchFrame), (∀ x ∈ l, c ≤ g x) →
      c * l.length ≤ (l.map g).sum
  | [], _ => by simp
  | a :: l, h => by
      have ih := const_mul_length_le_sum g c l
        (fun x hx => h x (List.mem_cons_of_mem a hx))
      have ha := h a (List.mem_cons_self a l)
      simp only [List.map_cons, List.sum_cons, List.length_cons]
      push_cast
      linarith

/-- The operation `addFrame` never touches the overlap list. -/
theorem addFrame_overlaps (s : BoardStitcher) (f : StitchFrame) :
    (addFrame s f).overlaps = s.overlaps := by
  unfold addFrame
  split <;> rfl

/-- The operation `addFrame` never shrinks the frame list. -/
theorem addFrame_length (s : BoardStitcher) (f : StitchFrame) :
    s.frames.length ≤ (addFrame s f).frames.length := by
  unfold addFrame
  split
  · exact le_refl _
  · simp

/-- The operation `stitch` never changes the stored frame sequence, on any path. -/
theorem stitch_frames (ctxOk : Bool) (s : BoardStitcher) :
    (stitch ctxOk s).1.frames = s.frames := by
  rcases s with ⟨fr, co, tr, ov⟩
  rcases fr with _ | ⟨f1, _ | ⟨f2, rest⟩⟩
  · rfl
  · rfl
  · cases ctxOk <;> rfl

/-- A `stitch` on fewer than two frames leaves the overlap list alone. -/
theorem stitch_overlaps_small (s : BoardStitcher) (ctxOk : Bool)
    (h : s.frames.length ≤ 1) : (stitch ctxOk s).1.overlaps = s.overlaps := by
  rcases s with ⟨fr, co, tr, ov⟩
  rcases fr with _ | ⟨f1, _ | ⟨f2, rest⟩⟩
  · rfl
  · rfl
  · simp at h

/-- A `stitch` on at least two frames replaces the overlap list with the
recomputed adjacent-pair overlaps — on the success path and on the
render-surface failure path alike (the source mutates `this.overlaps`
before acquiring the context). -/
theorem stitch_overlaps_multi (s : BoardStitcher) (ctxOk : Bool)
    (h : 2 ≤ s.frames.length) :
    (stitch ctxOk s).1.overlaps = computeOverlaps s.frames := by
  rcases s with ⟨fr, co, tr, ov⟩
  rcases fr with _ | ⟨f1, _ | ⟨f2, rest⟩⟩
  · simp at h
  · simp at h
  · cases ctxOk <;> rfl

/-- Any property guaranteed by `detectOverlap` for the regions it returns
holds for every stored overlap, in every state reachable from a state where
it already holds. -/
theorem overlaps_inv (P : OverlapRegion → Prop)
    (hdet : ∀ f1 f2 r, detectOverlap f1 f2 = some r → P r) :
    ∀ (ops : List Op) (s : BoardStitcher),
      (∀ r ∈ s.overlaps, P r) → ∀ r ∈ (ops.foldl step s).overlaps, P r
  | [], _, hs => hs
  | op :: ops, s, hs => by
      rw [List.foldl_cons]
      refine overlaps_inv P hdet ops (step s op) ?_
      cases op with
      | add f =>
          rw [step, addFrame_overlaps]
          exact hs
      | clearOp =>
          intro r hr
          simp [step, clear, BoardStitcher.init] at hr
      | stitchOp ctxOk =>
          rcases Nat.lt_or_ge s.frames.length 2 with h | h
          · rw [step, stitch_overlaps_small s ctxOk (by omega)]
            exact hs
          · rw [step, stitch_overlaps_multi s ctxOk h]
            intro r hr
            rcases mem_computeOverlaps _ r hr with ⟨p, _, hp⟩
            exact hdet p.1 p.2 r hp

/-- In every reachable state, the overlap list is empty or shorter than the
frame list. -/
theorem overlaps_size_inv :
    ∀ (ops : List Op) (s : BoardStitcher),
      (s.overlaps = [] ∨ s.overlaps.length + 1 ≤ s.frames.length) →
      ((ops.foldl step s).overlaps = []
        ∨ (ops.foldl step s).overlaps.length + 1 ≤ (ops.foldl step s).frames.length)
  | [], _, hs => hs
  | op :: ops, s, hs => by
      rw [List.foldl_cons]
      refine overlaps_size_inv ops (step s op) ?_
      cases op with
      | add f =>
          rcases hs with h | h
          · left
            rw [step, addFrame_overlaps]
            exact h
          · right
            rw [step, addFrame_overlaps]
            exact le_trans h (addFrame_length s f)
      | clearOp => exact Or.inl rfl
      | stitchOp ctxOk =>
          rcases Nat.lt_or_ge s.frames.length 2 with h | h
          · rw [step, stitch_overlaps_small s ctxOk (by omega),
              stitch_frames ctxOk s]
            exact hs
          · right
            rw [step, stitch_overlaps_multi s ctxOk h, stitch_frames ctxOk s]
            have := computeOverlaps_length s.frames
            omega

/-!
Claim theorems.
-/

/-- C1: a frame with quality score below 0.3 leaves the stitcher state (and
hence `getFrameCount()`) unchanged; a frame with quality score at least 0.3
is appended to the end of the stored frame sequence. -/
theorem addFrame_quality_gate (s : BoardStitcher) (f : StitchFrame) :
    (f.quality < 3/10 →
      addFrame s f = s ∧ getFrameCount (addFrame s f) = getFrameCount s)
    ∧ (3/10 ≤ f.quality → (addFrame s f).frames = s.frames ++ [f]) := by
  constructor
  · intro h
    have he : addFrame s f = s := by rw [addFrame, if_pos h]
    exact ⟨he, by rw [he]⟩
  · intro h
    rw [addFrame, if_neg (not_lt.mpr h)]

/-- Witness for C1 at concrete frames: quality 0.2 is dropped, quality 0.9
is appended. -/
theorem addFrame_quality_gate_witness :
    addFrame BoardStitcher.init exLowF = BoardStitcher.init
    ∧ (addFrame BoardStitcher.init exF1).frames = [exF1] :=
  ⟨((addFrame_quality_gate BoardStitcher.init exLowF).1 (by norm_num [exLowF])).1,
   by
    rw [(addFrame_quality_gate BoardStitcher.init exF1).2 (by norm_num [exF1])]
    rfl⟩

/-- C2: `stitch()` fails with `EmptyInputError` exactly when zero frames are
stored — with at least one frame the call never raises that error. -/
theorem stitch_emptyInput_iff (ctxOk : Bool) (s : BoardStitcher) :
    (stitch ctxOk s).2 = Except.error StitchError.emptyInput ↔ s.frames = [] := by
  rcases s with ⟨fr, co, tr, ov⟩
  rcases fr with _ | ⟨f1, _ | ⟨f2, rest⟩⟩
  · simp [stitch]
  · simp [stitch]
  · cases ctxOk <;> simp [stitch]

/-- Witness for C2: the empty stitcher raises `EmptyInputError`, the
one-frame stitcher does not. -/
theorem stitch_emptyInput_iff_witness :
    (stitch true BoardStitcher.init).2 = Except.error StitchError.emptyInput
    ∧ ¬ (stitch true exS1).2 = Except.error StitchError.emptyInput :=
  ⟨(stitch_emptyInput_iff true BoardStitcher.init).mpr rfl,
   fun h => by
    have := (stitch_emptyInput_iff true exS1).mp h
    simp [exS1] at this⟩

/-- C3: with exactly one stored frame, `stitch()` succeeds and returns that
frame's canvas unchanged (the very same raster), mutating nothing. -/
theorem stitch_single_identity (ctxOk : Bool) (s : BoardStitcher)
    (f : StitchFrame) (h : s.frames = [f]) :
    stitch ctxOk s = (s, Except.ok (StitchResult.single f.canvas)) := by
  unfold stitch
  rw [h]

/-- Witness for C3 at the one-frame exemplar stitcher. -/
theorem stitch_single_identity_witness :
    stitch true exS1 = (exS1, Except.ok (StitchResult.single exF1.canvas)) :=
  stitch_single_identity true exS1 exF1 rfl

/-- C9: a failing `stitch()` (empty input or no render surface) leaves the
stored frame sequence exactly as it was, so the caller may retry without
re-adding frames. -/
theorem stitch_failure_preserves_frames (ctxOk : Bool) (s : BoardStitcher)
    (e : StitchError) (_h : (stitch ctxOk s).2 = Except.error e) :
    (stitch ctxOk s).1.frames = s.frames
    ∧ getFrames (stitch ctxOk s).1 = getFrames s :=
  ⟨stitch_frames ctxOk s, stitch_frames ctxOk s⟩

/-- Witness for C9: both failure modes at concrete states — empty input on
the fresh stitcher, missing render surface on the two-frame stitcher. -/
theorem stitch_failure_preserves_frames_witness :
    (stitch true BoardStitcher.init).1.frames = BoardStitcher.init.frames
    ∧ (stitch false exS2).1.frames = exS2.frames :=
  ⟨(stitch_failure_preserves_frames true BoardStitcher.init
      StitchError.emptyInput rfl).1,
   (stitch_failure_preserves_frames false exS2 StitchError.renderSurface rfl).1⟩

/-- C10: the stored overlap list is recomputed only by a `stitch()` with at
least two stored frames (even one whose render surface fails); `addFrame`
never touches it, a `stitch()` with fewer than two frames never touches it,
and `clear()` (alone or followed by `addFrame`) leaves it empty, so between
multi-frame stitches `getQuality()`/`getProgress()` read the overlaps of the
most recent multi-frame stitch, or an empty list if none has run since
construction or the last `clear()`. -/
theorem overlaps_recompute_policy :
    (∀ s f, (addFrame s f).overlaps = s.overlaps)
    ∧ (∀ s ctxOk, s.frames.length ≤ 1 →
        (stitch ctxOk s).1.overlaps = s.overlaps)
    ∧ (∀ s ctxOk, 2 ≤ s.frames.length →
        (stitch ctxOk s).1.overlaps = computeOverlaps s.frames)
    ∧ (∀ s, (clear s).overlaps = [])
    ∧ (∀ s f, (addFrame (clear s) f).overlaps = []) :=
  ⟨addFrame_overlaps,
   stitch_overlaps_small,
   stitch_overlaps_multi,
   fun _ => rfl,
   fun s f => by rw [addFrame_overlaps]; rfl⟩

/-- Witness for C10: a one-frame stitch keeps the overlap list, a two-frame
stitch recomputes it. -/
theorem overlaps_recompute_policy_witness :
    (stitch true exS1).1.overlaps = exS1.overlaps
    ∧ (stitch true exS2).1.overlaps = computeOverlaps exS2.frames :=
  ⟨overlaps_recompute_policy.2.1 exS1 true (by simp [exS1]),
   overlaps_recompute_policy.2.2.1 exS2 true (by simp [exS2])⟩

/-- C5: every region `detectOverlap` returns has confidence at least 0.5;
when the best correlation score is below 0.5 detection returns no region;
and hence every overlap stored by the stitcher, in any reachable state, has
confidence at least 0.5. -/
theorem overlap_confidence_floor :
    (∀ f1 f2 r, detectOverlap f1 f2 = some r → 1/2 ≤ r.confidence)
    ∧ (∀ f1 f2, (bestPair (rightStrip f1) (leftStrip f2)).2 < 1/2 →
        detectOverlap f1 f2 = none)
    ∧ (∀ ops r, r ∈ (run ops).overlaps → 1/2 ≤ r.confidence) := by
  refine ⟨detectOverlap_conf, ?_, ?_⟩
  · intro f1 f2 h
    unfold detectOverlap
    dsimp only
    rw [if_pos h]
  · intro ops r hr
    exact overlaps_inv (fun r => 1/2 ≤ r.confidence) detectOverlap_conf ops
      BoardStitcher.init (by intro r hr; simp [BoardStitcher.init] at hr) r hr

/-- Witness for C5 at the concrete exemplar detection, whose returned
confidence is 1. -/
theorem overlap_confidence_floor_witness :
    (1 : ℚ)/2 ≤ OverlapRegion.confidence ⟨"f1", "f2", 0, 0, 60, 1, 1⟩ :=
  overlap_confidence_floor.1 exF1 exF2 _ detect_exF1_exF2

/-- The code's pre-crop width agrees with the spec's formula: the frame
widths sum, minus half of each found overlap's width, plus the padding. -/
theorem preCropWidth_eq_spec (fs : List StitchFrame) :
    preCropWidth fs = specPreCropWidth fs := by
  rw [preCropWidth, specPreCropWidth,
    totalWidth_eq fs _ (computeOverlaps_length fs)]
  norm_num [padding]

/-- The `maxHeight` of a nonempty frame list bounds every frame height and is
attained by one of them. -/
theorem maxHeight_bounds (f1 : StitchFrame) (rest : List StitchFrame) :
    (∀ f ∈ f1 :: rest, f.canvas.height ≤ maxHeight (f1 :: rest))
    ∧ ∃ f ∈ f1 :: rest, maxHeight (f1 :: rest) = f.canvas.height := by
  have hfold : maxHeight (f1 :: rest)
      = (rest.map fun g => g.canvas.height).foldl max f1.canvas.height := by
    rw [maxHeight, List.foldl_map]
  constructor
  · intro f hf
    rcases List.mem_cons.mp hf with rfl | hf
    · rw [hfold]
      exact le_foldl_max _ _
    · rw [hfold]
      exact mem_le_foldl_max _ _ _ (List.mem_map_of_mem _ hf)
  · rw [hfold]
    rcases foldl_max_mem (rest.map fun g => g.canvas.height) f1.canvas.height
      with h | h
    · exact ⟨f1, List.mem_cons_self _ _, h⟩
    · rcases List.mem_map.mp h with ⟨g, hg, he⟩
      exact ⟨g, List.mem_cons_of_mem _ hg, he.symm⟩

/-- C4: with at least two stored frames and an available render surface,
`stitch()` succeeds, and its pre-crop composition width is the sum of the
frame widths minus half the overlap width of each pair that found an overlap,
plus 20px padding on each side; its pre-crop height is the maximum frame
height plus 20px padding on each side. -/
theorem stitch_preCrop_size (s : BoardStitcher) (h2 : 2 ≤ s.frames.length) :
    (stitch true s).2 = Except.ok (StitchResult.composite
        ⟨specPreCropWidth s.frames, (maxHeight s.frames : ℚ) + 20 * 2⟩)
    ∧ (∀ f ∈ s.frames, f.canvas.height ≤ maxHeight s.frames)
    ∧ ∃ f ∈ s.frames, maxHeight s.frames = f.canvas.height := by
  rcases s with ⟨fr, co, tr, ov⟩
  rcases fr with _ | ⟨f1, _ | ⟨f2, rest⟩⟩
  · simp at h2
  · simp at h2
  · refine ⟨?_, (maxHeight_bounds f1 (f2 :: rest)).1,
      (maxHeight_bounds f1 (f2 :: rest)).2⟩
    have hred : (stitch true ⟨f1 :: f2 :: rest, co, tr, ov⟩).2
        = Except.ok (StitchResult.composite
            ⟨preCropWidth (f1 :: f2 :: rest), preCropHeight (f1 :: f2 :: rest)⟩) :=
      rfl
    rw [hred, preCropWidth_eq_spec, preCropHeight]
    norm_num [padding]

/-- Witness for C4 at the two-frame exemplar: pre-crop size 130 × 41. -/
theorem stitch_preCrop_size_witness :
    (stitch true exS2).2 = Except.ok (StitchResult.composite ⟨130, 41⟩) := by
  have h := (stitch_preCrop_size exS2 (by simp [exS2])).1
  rw [h]
  have hw : specPreCropWidth exS2.frames = 130 := by
    rw [← preCropWidth_eq_spec]
    exact preCropWidth_exS2
  have hh : (maxHeight exS2.frames : ℚ) + 20 * 2 = 41 := by
    norm_num [exS2, maxHeight, exF1, exF2, exCanvas60]
  rw [hw, hh]

/-- C7 counterexample: the stitcher holding the 100px frame and two 1px
frames has at least two frames, yet its pre-crop composition width is 82,
less than the 100px width of its widest frame — refuting the claim that the
pre-crop width always reaches the widest frame's width. -/
theorem preCrop_width_counterexample :
    2 ≤ exNarrowS.frames.length
    ∧ exWideF ∈ exNarrowS.frames
    ∧ (stitch true exNarrowS).2 = Except.ok (StitchResult.composite
        ⟨preCropWidth exNarrowS.frames, preCropHeight exNarrowS.frames⟩)
    ∧ preCropWidth exNarrowS.frames = 82
    ∧ (82 : ℚ) < exWideF.canvas.width := by
  refine ⟨by simp [exNarrowS], by simp [exNarrowS], rfl,
    preCropWidth_exNarrowS, by norm_num [exWideF, exCanvas100]⟩

/-- C7 (amended): when every stored frame is at least as wide as the 60px
edge strip, the pre-crop composition width of a multi-frame stitch is at
least the width of the widest stored frame. -/
theorem preCrop_width_ge_widest (s : BoardStitcher) (h2 : 2 ≤ s.frames.length)
    (hw : ∀ f ∈ s.frames, 60 ≤ f.canvas.width) :
    (stitch true s).2 = Except.ok (StitchResult.composite
        ⟨preCropWidth s.frames, preCropHeight s.frames⟩)
    ∧ ∀ f ∈ s.frames, (f.canvas.width : ℚ) ≤ preCropWidth s.frames := by
  constructor
  · rcases s with ⟨fr, co, tr, ov⟩
    rcases fr with _ | ⟨f1, _ | ⟨f2, rest⟩⟩
    · simp at h2
    · simp at h2
    · rfl
  · intro f hf
    have hov : ∀ o ∈ computeOverlaps s.frames, o.width = 60 := by
      intro o ho
      rcases mem_computeOverlaps _ o ho with ⟨p, _, hp⟩
      exact detectOverlap_width p.1 p.2 o hp
    have hhalf : ((computeOverlaps s.frames).map fun o => (o.width : ℚ) / 2).sum
        = 30 * (computeOverlaps s.frames).length := by
      have : ((computeOverlaps s.frames).map fun o => (o.width : ℚ) / 2)
          = (computeOverlaps s.frames).map fun _ => (30 : ℚ) := by
        refine List.map_congr_left fun o ho => ?_
        rw [hov o ho]
        norm_num
      rw [this, List.map_const', List.sum_replicate, nsmul_eq_mul]
      ring
    rcases List.append_of_mem hf with ⟨l1, l2, hsplit⟩
    have hS : (s.frames.map fun g => (g.canvas.width : ℚ)).sum
        = (l1.map fun g => (g.canvas.width : ℚ)).sum
          + ((f.canvas.width : ℚ)
            + (l2.map fun g => (g.canvas.width : ℚ)).sum) := by
      rw [hsplit]
      simp
    have hl1 : (60 : ℚ) * l1.length
        ≤ (l1.map fun g => (g.canvas.width : ℚ)).sum := by
      refine const_mul_length_le_sum _ 60 l1 fun x hx => ?_
      have hx' : x ∈ s.frames := by
        rw [hsplit]
        exact List.mem_append_left _ hx
      exact_mod_cast hw x hx'
    have hl2 : (60 : ℚ) * l2.length
        ≤ (l2.map fun g => (g.canvas.width : ℚ)).sum := by
      refine const_mul_length_le_sum _ 60 l2 fun x hx => ?_
      have hx' : x ∈ s.frames := by
        rw [hsplit]
        exact List.mem_append_right _ (List.mem_cons_of_mem f hx)
      exact_mod_cast hw x hx'
    have hn : s.frames.length = l1.length + l2.length + 1 := by
      rw [hsplit]
      simp [List.length_append]
      omega
    have hkn : (computeOverlaps s.frames).length ≤ l1.length + l2.length := by
      have := computeOverlaps_length s.frames
      omega
    have hk : ((computeOverlaps s.frames).length : ℚ)
        ≤ (l1.length : ℚ) + (l2.length : ℚ) := by
      exact_mod_cast hkn
    have hL1 : (0 : ℚ) ≤ (l1.length : ℚ) := Nat.cast_nonneg _
    have hL2 : (0 : ℚ) ≤ (l2.length : ℚ) := Nat.cast_nonneg _
    have hp : (padding : ℚ) = 20 := by norm_num [padding]
    rw [preCropWidth, totalWidth_eq _ _ (computeOverlaps_length s.frames),
      hhalf, hp]
    linarith [hS, hl1, hl2, hk]

/-- Witness for the amended C7 at the two-frame 60px exemplar. -/
theorem preCrop_width_ge_widest_witness :
    (exF1.canvas.width : ℚ) ≤ preCropWidth exS2.frames := by
  refine (preCrop_width_ge_widest exS2 (by simp [exS2]) ?_).2 exF1 ?_
  · intro f hf
    simp [exS2] at hf
    rcases hf with rfl | rfl
    · simp [exF1, exCanvas60]
    · simp [exF2, exCanvas60]
  · simp [exS2]

/-- C6: overlap detection correlates the 60px grayscale strips: its scoring
loop computes exactly the spec's per-offset average, the best score it keeps
dominates the score of every candidate offset `o < min(len, len) - 20` (and
is attained at the reported offset unless nothing beat the zero initial
score), detection reports no overlap exactly when the best score is below
0.5, and a reported region carries the best offset and best score. -/
theorem detectOverlap_pipeline (f1 f2 : StitchFrame) :
    (∀ o, correlateEdges (rightStrip f1) (leftStrip f2) o
        = specScore (rightStrip f1) (leftStrip f2) o)
    ∧ (∀ o, o < min (rightStrip f1).length (leftStrip f2).length - 20 →
        specScore (rightStrip f1) (leftStrip f2) o
          ≤ (bestPair (rightStrip f1) (leftStrip f2)).2)
    ∧ (bestPair (rightStrip f1) (leftStrip f2) = (0, 0)
        ∨ ((bestPair (rightStrip f1) (leftStrip f2)).1
              < min (rightStrip f1).length (leftStrip f2).length - 20
          ∧ (bestPair (rightStrip f1) (leftStrip f2)).2
              = specScore (rightStrip f1) (leftStrip f2)
                  (bestPair (rightStrip f1) (leftStrip f2)).1))
    ∧ (detectOverlap f1 f2 = none
        ↔ (bestPair (rightStrip f1) (leftStrip f2)).2 < 1/2)
    ∧ ∀ r, detectOverlap f1 f2 = some r →
        r.y = (bestPair (rightStrip f1) (leftStrip f2)).1
        ∧ r.confidence = (bestPair (rightStrip f1) (leftStrip f2)).2 := by
  refine ⟨fun o => correlateEdges_eq_specScore _ _ o, ?_, ?_, ?_, ?_⟩
  · intro o ho
    rw [← correlateEdges_eq_specScore]
    exact (bestPair_spec _ _).1 o ho
  · rcases (bestPair_spec (rightStrip f1) (leftStrip f2)).2 with h | ⟨h1, h2⟩
    · exact Or.inl h
    · refine Or.inr ⟨h1, ?_⟩
      rw [h2, correlateEdges_eq_specScore]
  · unfold detectOverlap
    dsimp only
    constructor
    · intro h
      by_cases hb : (bestPair (rightStrip f1) (leftStrip f2)).2 < 1/2
      · exact hb
      · rw [if_neg hb] at h
        exact absurd h (by simp)
    · intro hb
      rw [if_pos hb]
  · intro r h
    unfold detectOverlap at h
    dsimp only at h
    split at h
    · exact absurd h (by simp)
    · cases h
      exact ⟨rfl, rfl⟩

/-- Witness for C6 at the exemplar frames: offset 0 is a candidate and its
score is dominated, the no-overlap condition is the sub-0.5 test, and the
returned region's offset is the best offset. -/
theorem detectOverlap_pipeline_witness :
    specScore (rightStrip exF1) (leftStrip exF2) 0
      ≤ (bestPair (rightStrip exF1) (leftStrip exF2)).2
    ∧ (detectOverlap exF1 exF2 = none
        ↔ (bestPair (rightStrip exF1) (leftStrip exF2)).2 < 1/2)
    ∧ OverlapRegion.y ⟨"f1", "f2", 0, 0, 60, 1, 1⟩
        = (bestPair (rightStrip exF1) (leftStrip exF2)).1 := by
  refine ⟨(detectOverlap_pipeline exF1 exF2).2.1 0 ?_,
    (detectOverlap_pipeline exF1 exF2).2.2.2.1,
    ((detectOverlap_pipeline exF1 exF2).2.2.2.2 _ detect_exF1_exF2).1⟩
  rw [exStrips.1, exStrips.2.1]
  decide

/-- The state reached by adding the same accepted frame `n` times. -/
theorem run_replicate_add :
    ∀ (n : ℕ) (s : BoardStitcher),
      (List.replicate n (Op.add exF1)).foldl step s
        = { s with frames := s.frames ++ List.replicate n exF1 }
  | 0, s => by simp
  | n + 1, s => by
      rw [List.replicate_succ, List.foldl_cons]
      have hstep : step s (Op.add exF1)
          = { s with frames := s.frames ++ [exF1] } := by
        rw [step, addFrame, if_neg (by norm_num [exF1])]
      rw [hstep, run_replicate_add n]
      simp [List.replicate_succ]

/-- C8 counterexample: after 21 accepted frames (a reachable state), the
frame-count term `frameCount/20 × 60` is 63, exceeding the claimed 60-point
cap, and `getProgress()` itself returns 63 while the overlap term is 0. -/
theorem getProgress_frame_term_counterexample :
    getProgress (run (List.replicate 21 (Op.add exF1))) = 63
    ∧ (run (List.replicate 21 (Op.add exF1))).overlaps = []
    ∧ overlapProgress (run (List.replicate 21 (Op.add exF1))) = 0
    ∧ 60 < frameProgress (run (List.replicate 21 (Op.add exF1))) := by
  have h : run (List.replicate 21 (Op.add exF1))
      = { BoardStitcher.init with frames := List.replicate 21 exF1 } := by
    rw [run, run_replicate_add]
    rfl
  rw [h]
  refine ⟨?_, rfl, ?_, ?_⟩
  · rw [getProgress, frameProgress, overlapProgress]
    simp only [List.length_replicate, BoardStitcher.init]
    norm_num
  · rw [overlapProgress]
    simp [BoardStitcher.init]
  · rw [frameProgress]
    simp only [List.length_replicate]
    norm_num

/-- C8 (amended): `getProgress()` always returns a value in [0, 100] — it is
`min(100, frameTerm + overlapTerm)` on a nonempty stitcher and 0 on an empty
one; in every reachable state the overlap-detection-rate term is at most 40
points, while the frame-count term `frameCount/20 × 60` is at most 60 points
only when at most 20 frames are stored (it grows past 60 beyond that, capped
only by the final `min` at 100). -/
theorem getProgress_spec (ops : List Op) :
    0 ≤ getProgress (run ops)
    ∧ getProgress (run ops) ≤ 100
    ∧ ((run ops).frames = [] → getProgress (run ops) = 0)
    ∧ overlapProgress (run ops) ≤ 40
    ∧ ((run ops).frames.length ≤ 20 → frameProgress (run ops) ≤ 60)
    ∧ getProgress (run ops)
        = (if (run ops).frames.length = 0 then 0
          else min 100 (frameProgress (run ops) + overlapProgress (run ops))) := by
  have hinv : (run ops).overlaps = []
      ∨ (run ops).overlaps.length + 1 ≤ (run ops).frames.length := by
    rw [run]
    exact overlaps_size_inv ops BoardStitcher.init (Or.inl rfl)
  have hover : overlapProgress (run ops) ≤ 40 := by
    rcases hinv with h | h
    · rw [overlapProgress, h]
      simp
    · rw [overlapProgress]
      have hm : (run ops).overlaps.length
          ≤ max 1 ((run ops).frames.length - 1) := by omega
      have hd : (0 : ℚ) < ((max 1 ((run ops).frames.length - 1) : ℕ) : ℚ) := by
        have h1 : 0 < max 1 ((run ops).frames.length - 1) :=
          Nat.lt_of_lt_of_le Nat.zero_lt_one (le_max_left _ _)
        exact_mod_cast h1
      have hq : (((run ops).overlaps.length : ℚ)
          / ((max 1 ((run ops).frames.length - 1) : ℕ) : ℚ)) ≤ 1 := by
        rw [div_le_one hd]
        exact_mod_cast hm
      calc ((run ops).overlaps.length : ℚ)
            / ((max 1 ((run ops).frames.length - 1) : ℕ) : ℚ) * 40
          ≤ 1 * 40 := mul_le_mul_of_nonneg_right hq (by norm_num)
        _ = 40 := one_mul 40
  have hfp0 : 0 ≤ frameProgress (run ops) := by
    rw [frameProgress]
    positivity
  have hop0 : 0 ≤ overlapProgress (run ops) := by
    rw [overlapProgress]
    positivity
  refine ⟨?_, ?_, ?_, hover, ?_, rfl⟩
  · rw [getProgress]
    split
    · exact le_refl 0
    · exact le_min (by norm_num) (by linarith)
  · rw [getProgress]
    split
    · norm_num
    · exact min_le_left _ _
  · intro h
    rw [getProgress, if_pos (by rw [h]; rfl)]
  · intro h
    rw [frameProgress]
    have hc : ((run ops).frames.length : ℚ) ≤ 20 := by exact_mod_cast h
    linarith

/-- Witness for the amended C8 at the empty operation sequence. -/
theorem getProgress_spec_witness :
    getProgress (run []) = 0 ∧ overlapProgress (run []) ≤ 40 :=
  ⟨(getProgress_spec []).2.2.1 rfl, (getProgress_spec []).2.2.2.1⟩

end SasaSight
